import Mathlib

/-!
Shallow embedding of `src/task3_async_chat/server.py`: the asynchronous
chat server (rooms, membership, broadcast queue, private inboxes, the
slash-command interpreter, file upload, connection teardown).

Python strings are embedded as `String`, per-line whitespace handling via
the helpers below (modelling `str.strip`, `str.split(maxsplit=1)`,
`str.lower`, `str.lstrip('@')`).  `asyncio.Queue` objects are embedded as
`List Message` (FIFO: `put` appends at the right, `get` removes the head).
`datetime.now().strftime(...)` is an ambient input, passed as a `now : String`
argument.  Python `set` objects of client connections are embedded as
duplicate-free `List Client` (`set.add` inserts if absent, `set.discard`
filters out).
-/

namespace AsyncChat

/-- Python `str.isspace`-style whitespace set used by `str.strip()` /
`str.split()` (ASCII part: space, tab, LF, CR, VT, FF). -/
def pyIsSpace (c : Char) : Bool :=
  c = ' ' || c = '\t' || c = '\n' || c = '\r' || c = Char.ofNat 11 || c = Char.ofNat 12

/-- Python `str.strip()` on a character list: drop whitespace from both ends. -/
def pyStripChars (cs : List Char) : List Char :=
  ((cs.dropWhile pyIsSpace).reverse.dropWhile pyIsSpace).reverse

/-- Python `data.strip()`. -/
def pyStrip (s : String) : String :=
  String.mk (pyStripChars s.data)

/-- Python `s.split(maxsplit=1)`: drop leading whitespace, take the first
whitespace-free token, drop the separating whitespace run; if nothing
remains the result is the lone token, else token plus remainder. -/
def pySplitFirst (cs : List Char) : List (List Char) :=
  let cs1 := cs.dropWhile pyIsSpace
  if cs1 = [] then []
  else
    let tok := cs1.takeWhile (fun c => !(pyIsSpace c))
    let rest := (cs1.dropWhile (fun c => !(pyIsSpace c))).dropWhile pyIsSpace
    if rest = [] then [tok] else [tok, rest]

/-- Python `s.lower()` (per-character, as used on ASCII command words). -/
def pyLower (s : String) : String :=
  String.mk (s.data.map Char.toLower)

/-- Python `s.lstrip('@')`: remove every leading `'@'`. -/
def pyLstripAt (s : String) : String :=
  String.mk (s.data.dropWhile (fun c => c = '@'))

/-- The JSON records the server builds (`{"type": ..., ...}`); every field
other than `type` is optional because different message kinds populate
different fields.  `fromUser` embeds the JSON key `"from"`. -/
structure Message where
  type : String
  sender : Option String := none
  fromUser : Option String := none
  content : Option String := none
  message : Option String := none
  time : Option String := none
deriving DecidableEq, Repr

/-- A `ClientConnection`'s identity part: the object identity (`id`) and
`self.username`.  The mutable queues are carried separately. -/
structure Client where
  id : Nat
  username : String
deriving DecidableEq, Repr

/-- Embeds `ChatRoom`: `self.name`, `self.members` (a Python set, embedded as a
duplicate-free list), `self.message_queue` (FIFO list). -/
structure Room where
  name : String
  members : List Client
  queue : List Message
deriving DecidableEq, Repr

/-- The `"system"` records built in `add_member` / `remove_member` /
`_upload_file`: `{"type": "system", "content": ..., "time": ...}`. -/
def systemMsg (content now : String) : Message :=
  { type := "system", content := some content, time := some now }

/-- Embeds `ChatRoom.add_member`: `self.members.add(client)` then put a
join notice on `self.message_queue`. -/
def add_member (room : Room) (c : Client) (now : String) : Room :=
  { room with
    members := if c ∈ room.members then room.members else room.members ++ [c],
    queue := room.queue ++ [systemMsg (c.username ++ " joined the room") now] }

/-- Embeds `ChatRoom.remove_member`: `self.members.discard(client)` then put a
leave notice on `self.message_queue`. -/
def remove_member (room : Room) (c : Client) (now : String) : Room :=
  { room with
    members := room.members.filter (fun m => m != c),
    queue := room.queue ++ [systemMsg (c.username ++ " left the room") now] }

/-- The `{"type": "message", "sender": ..., "content": ..., "time": ...}`
record built in `ChatRoom.post_message` for room chat. -/
def roomChatMsg (sender content now : String) : Message :=
  { type := "message", sender := some sender,
    content := some content, time := some now }

/-- Embeds `ChatRoom.post_message`: put a room-chat record on
`self.message_queue`. -/
def post_message (room : Room) (c : Client) (content now : String) : Room :=
  { room with queue := room.queue ++ [roomChatMsg c.username content now] }

/-- The `{"type": "private", "from": ..., "content": ..., "time": ...}`
record built in `ChatRoom.send_private_message`. -/
def privateMsg (fromName content now : String) : Message :=
  { type := "private", fromUser := some fromName,
    content := some content, time := some now }

/-- Embeds `ChatRoom.send_private_message`: linear scan of `self.members` for the
first member whose `username` equals `to_username`; on a hit, one
`private` record is put on that member's `private_queue` (returned here as
the write list `[(target.id, record)]`) and the result is `True`;
otherwise no queue is touched and the result is `False`. -/
def send_private_message (room : Room) (fromClient : Client)
    (toUsername content now : String) : Bool × List (Nat × Message) :=
  match room.members.find? (fun m => m.username == toUsername) with
  | some target => (true, [(target.id, privateMsg fromClient.username content now)])
  | none => (false, [])

/-- Applying a list of private-inbox writes to the per-client inbox map
(`client.private_queue` for each client id). -/
def applyPrivWrites (privQ : Nat → List Message) :
    List (Nat × Message) → (Nat → List Message)
  | [] => privQ
  | (i, m) :: rest =>
      applyPrivWrites (fun j => if j = i then privQ j ++ [m] else privQ j) rest

theorem find_mem_username {l : List Client} {u : String} {t : Client}
    (h : l.find? (fun m => m.username == u) = some t) :
    t ∈ l ∧ t.username = u := by
  refine ⟨List.mem_of_find?_eq_some h, ?_⟩
  have := List.find?_some h
  simpa using this

theorem find_none_username {l : List Client} {u : String}
    (h : l.find? (fun m => m.username == u) = none) :
    ∀ m ∈ l, m.username ≠ u := by
  intro m hm he
  have := List.find?_eq_none.mp h m hm
  simp [he] at this

/-- C2: `send_private_message(A, "B", text)` returns `True` and performs
exactly one inbox write — a `private` record carrying the sender's
username, the content and the timestamp, onto the inbox of a member whose
username is `"B"` — iff a member named `"B"` is in the room; otherwise it
returns `False` and performs no inbox write, so applying its writes leaves
every private inbox unchanged. -/
theorem send_private_message_spec (room : Room) (fromClient : Client)
    (toUsername content now : String) :
    ((send_private_message room fromClient toUsername content now).1 = true ↔
      ∃ m ∈ room.members, m.username = toUsername) ∧
    ((send_private_message room fromClient toUsername content now).1 = true →
      ∃ t ∈ room.members, t.username = toUsername ∧
        (send_private_message room fromClient toUsername content now).2 =
          [(t.id, privateMsg fromClient.username content now)]) ∧
    ((send_private_message room fromClient toUsername content now).1 = false →
      (send_private_message room fromClient toUsername content now).2 = [] ∧
      ∀ privQ : Nat → List Message,
        applyPrivWrites privQ
          (send_private_message room fromClient toUsername content now).2 = privQ) := by
  unfold send_private_message
  cases hf : room.members.find? (fun m => m.username == toUsername) with
  | some t =>
    obtain ⟨hmem, huser⟩ := find_mem_username hf
    refine ⟨⟨fun _ => ⟨t, hmem, huser⟩, fun _ => rfl⟩, ?_, ?_⟩
    · intro _
      exact ⟨t, hmem, huser, rfl⟩
    · intro h
      simp at h
  | none =>
    have hno := find_none_username hf
    refine ⟨⟨by simp, ?_⟩, ?_, ?_⟩
    · rintro ⟨m, hm, hu⟩
      exact absurd hu (hno m hm)
    · intro h
      simp at h
    · intro _
      exact ⟨rfl, fun privQ => rfl⟩

/-- Witness for C2 at a concrete room: `bob` is a member, so the send
succeeds and writes exactly one record to bob's inbox. -/
theorem send_private_message_spec_witness :
    ((send_private_message
        { name := "lobby",
          members := [⟨1, "alice"⟩, ⟨2, "bob"⟩], queue := [] }
        ⟨1, "alice"⟩ "bob" "hi" "2024-01-01 00:00:00").1 = true ↔
      ∃ m ∈ [(⟨1, "alice"⟩ : Client), ⟨2, "bob"⟩], m.username = "bob") ∧
    ((send_private_message
        { name := "lobby",
          members := [⟨1, "alice"⟩, ⟨2, "bob"⟩], queue := [] }
        ⟨1, "alice"⟩ "bob" "hi" "2024-01-01 00:00:00").1 = true →
      ∃ t ∈ [(⟨1, "alice"⟩ : Client), ⟨2, "bob"⟩], t.username = "bob" ∧
        (send_private_message
          { name := "lobby",
            members := [⟨1, "alice"⟩, ⟨2, "bob"⟩], queue := [] }
          ⟨1, "alice"⟩ "bob" "hi" "2024-01-01 00:00:00").2 =
          [(t.id, privateMsg "alice" "hi" "2024-01-01 00:00:00")]) ∧
    ((send_private_message
        { name := "lobby",
          members := [⟨1, "alice"⟩, ⟨2, "bob"⟩], queue := [] }
        ⟨1, "alice"⟩ "bob" "hi" "2024-01-01 00:00:00").1 = false →
      (send_private_message
        { name := "lobby",
          members := [⟨1, "alice"⟩, ⟨2, "bob"⟩], queue := [] }
        ⟨1, "alice"⟩ "bob" "hi" "2024-01-01 00:00:00").2 = [] ∧
      ∀ privQ : Nat → List Message,
        applyPrivWrites privQ
          (send_private_message
            { name := "lobby",
              members := [⟨1, "alice"⟩, ⟨2, "bob"⟩], queue := [] }
            ⟨1, "alice"⟩ "bob" "hi" "2024-01-01 00:00:00").2 = privQ) :=
  send_private_message_spec
    { name := "lobby", members := [⟨1, "alice"⟩, ⟨2, "bob"⟩], queue := [] }
    ⟨1, "alice"⟩ "bob" "hi" "2024-01-01 00:00:00"

/-- Embeds `ClientConnection.receive_message`: `reader.readline()` yields raw
bytes (`some data`) or raises (`none`, which the handler also uses for
EOF, where `data` is empty); empty data returns `None`, otherwise the
decoded line is stripped. -/
def receive_message (raw : Option String) : Option String :=
  match raw with
  | none => none
  | some data => if data == "" then none else some (pyStrip data)

/-- The `{"type": "request", "message": "Enter your username:"}` record
sent at the start of `handle_client`. -/
def usernameRequestMsg : Message :=
  { type := "request", message := some "Enter your username:" }

/-- The `{"type": "request", "message": "Enter room name:"}` record. -/
def roomRequestMsg : Message :=
  { type := "request", message := some "Enter room name:" }

/-- The `{"type": "success", "message": "Welcome to room '...'! ..."}`
record sent after joining. -/
def welcomeMsg (roomName : String) : Message :=
  { type := "success",
    message := some ("Welcome to room '" ++ roomName ++
      "'! (Type /help for commands)") }

/-- Result of the `handle_client` handshake: either the handler returns
early (`aborted`, no room membership is created) or the client is
attached to a room (`joined username roomName`). -/
inductive HandshakeResult where
  | aborted
  | joined (username roomName : String)
deriving DecidableEq, Repr

/-- The handshake portion of `AsyncChatServer.handle_client`, over the two
raw input lines: send the username request, read a line
(`if not username: return`), send the room request, read a line
(`if not room_name: return`), then attach to the room.  Also returns the
messages sent to the client up to that point. -/
def handshake (rawName rawRoom : Option String) :
    HandshakeResult × List Message :=
  match receive_message rawName with
  | none => (.aborted, [usernameRequestMsg])
  | some u =>
    if u == "" then (.aborted, [usernameRequestMsg])
    else
      match receive_message rawRoom with
      | none => (.aborted, [usernameRequestMsg, roomRequestMsg])
      | some r =>
        if r == "" then (.aborted, [usernameRequestMsg, roomRequestMsg])
        else (.joined u r, [usernameRequestMsg, roomRequestMsg, welcomeMsg r])

/-- What one iteration of `AsyncChatServer._receive_from_client` does with
the value `receive_message` returned. -/
inductive LoopAction where
  | exitLoop
  | command (s : String)
  | chat (s : String)
  | ignore
deriving DecidableEq, Repr

/-- One iteration of `_receive_from_client`: `if not message: break`;
lines starting with `'/'` go to `_handle_command`; other lines are posted
to the current room when there is one, else dropped. -/
def receive_loop_step (msg : Option String) (hasRoom : Bool) : LoopAction :=
  match msg with
  | none => .exitLoop
  | some s =>
    if s == "" then .exitLoop
    else if s.startsWith "/" then .command s
    else if hasRoom then .chat s else .ignore

theorem dropWhile_eq_nil_of_all {cs : List Char}
    (h : cs.all pyIsSpace) : cs.dropWhile pyIsSpace = [] := by
  induction cs with
  | nil => rfl
  | cons c cs ih =>
    simp only [List.all_cons, Bool.and_eq_true] at h
    simp [List.dropWhile, h.1, ih h.2]

theorem pyStrip_eq_empty_of_all_space {s : String}
    (h : s.data.all pyIsSpace) : pyStrip s = "" := by
  unfold pyStrip pyStripChars
  rw [dropWhile_eq_nil_of_all h]
  rfl

/-- C3 counterexample: a client that answers the display-name request with
a blank line (raw data `"\n"`) is not given an anonymous fallback name;
the handshake aborts even though a non-empty room name follows. -/
theorem handshake_blank_name_aborts :
    (handshake (some "\n") (some "general\n")).1 = HandshakeResult.aborted := by
  decide

/-- C3 (amended): an empty (or whitespace-only) answer to the display-name
or room-name request is treated exactly like end-of-stream: the handshake
aborts and no Session is attached to a Room; a handshake only completes
(`joined u r`) when both answers strip to non-empty strings, and then the
session is attached to room `r` under name `u`. -/
theorem handshake_empty_falls_back_to_abort (rawName rawRoom : Option String) :
    (receive_message rawName = none ∨ receive_message rawName = some "" →
      (handshake rawName rawRoom).1 = HandshakeResult.aborted) ∧
    (receive_message rawRoom = none ∨ receive_message rawRoom = some "" →
      (handshake rawName rawRoom).1 = HandshakeResult.aborted) ∧
    (∀ u r, (handshake rawName rawRoom).1 = HandshakeResult.joined u r →
      receive_message rawName = some u ∧ receive_message rawRoom = some r ∧
      u ≠ "" ∧ r ≠ "") := by
  refine ⟨?_, ?_, ?_⟩
  · rintro (h | h) <;> simp [handshake, h]
  · rintro (h | h) <;>
      · cases hn : receive_message rawName with
        | none => simp [handshake, hn]
        | some u =>
          by_cases hu : u = "" <;> simp [handshake, hn, hu, h]
  · intro u r hj
    cases hn : receive_message rawName with
    | none => simp [handshake, hn] at hj
    | some u' =>
      by_cases hu : u' = ""
      · simp [handshake, hn, hu] at hj
      · cases hr : receive_message rawRoom with
        | none => simp [handshake, hn, hu, hr] at hj
        | some r' =>
          by_cases hrr : r' = ""
          · simp [handshake, hn, hu, hr, hrr] at hj
          · simp [handshake, hn, hu, hr, hrr] at hj
            obtain ⟨h1, h2⟩ := hj
            subst h1
            subst h2
            exact ⟨rfl, rfl, hu, hrr⟩

/-- Witness for the amended C3 at concrete inputs: blank room-name answer
aborts the handshake. -/
theorem handshake_empty_falls_back_to_abort_witness :
    (receive_message (some "alice\n") = none ∨
        receive_message (some "alice\n") = some "" →
      (handshake (some "alice\n") (some "\n")).1 = HandshakeResult.aborted) ∧
    (receive_message (some "\n") = none ∨ receive_message (some "\n") = some "" →
      (handshake (some "alice\n") (some "\n")).1 = HandshakeResult.aborted) ∧
    (∀ u r,
      (handshake (some "alice\n") (some "\n")).1 = HandshakeResult.joined u r →
      receive_message (some "alice\n") = some u ∧
      receive_message (some "\n") = some r ∧ u ≠ "" ∧ r ≠ "") :=
  handshake_empty_falls_back_to_abort (some "alice\n") (some "\n")

/-- State of one room's shared `message_queue` together with what each
member's `_broadcast_room_messages` loop has forwarded to its client so
far (`delivered` is indexed by member position). -/
structure BState where
  queue : List Message
  delivered : List (List Message)
deriving DecidableEq, Repr

/-- One scheduler step of the per-member delivery loops
(`AsyncChatServer._broadcast_room_messages`): member loop `i` executes
`message = await room.message_queue.get()` — `asyncio.Queue.get` removes
the head item from the single shared queue — and then
`await client.send_message(message)` forwards it to that one client. -/
inductive BStep : BState → BState → Prop where
  | get (i : Nat) (m : Message) (q : List Message) (d : List (List Message))
      (h : i < d.length) :
      BStep ⟨m :: q, d⟩ ⟨q, d.set i (d.get ⟨i, h⟩ ++ [m])⟩

/-- Copies of `msg` still queued plus copies already delivered to any
member loop. -/
def totalCount (msg : Message) (st : BState) : Nat :=
  st.queue.count msg + (st.delivered.map (fun l => l.count msg)).sum

theorem sum_map_set (f : List Message → Nat) (l : List (List Message))
    (i : Nat) (a : List Message) (h : i < l.length) :
    ((l.set i a).map f).sum + f (l.get ⟨i, h⟩) = (l.map f).sum + f a := by
  induction l generalizing i with
  | nil => exact absurd h (by simp)
  | cons x xs ih =>
    cases i with
    | zero => simp [List.set]; omega
    | succ n =>
      have hn : n < xs.length := by simpa using h
      have := ih n hn
      simp only [List.set, List.map_cons, List.sum_cons, List.get]
      omega

theorem totalCount_step {st st' : BState} (msg : Message) (h : BStep st st') :
    totalCount msg st' = totalCount msg st := by
  cases h with
  | get i m q d hlt =>
    have hset := sum_map_set (fun l => l.count msg) d i
      (d.get ⟨i, hlt⟩ ++ [m]) hlt
    by_cases hm : m = msg
    · subst hm
      simp only [totalCount, List.count_cons, List.count_append] at *
      simp at hset ⊢
      omega
    · have hb : (m == msg) = false := by simp [hm]
      simp only [totalCount, List.count_cons, List.count_append, hb,
        if_false] at *
      simp [List.count_cons, hb] at hset ⊢
      omega

theorem totalCount_reach {st st' : BState} (msg : Message)
    (h : Relation.ReflTransGen BStep st st') :
    totalCount msg st' = totalCount msg st := by
  induction h with
  | refl => rfl
  | tail _ hstep ih => rw [totalCount_step msg hstep]; exact ih

/-- C1 (bug): the room's broadcast queue is one shared `asyncio.Queue`
and each member's delivery loop `get`s from it destructively, so a message
enqueued while two sessions are members can never be delivered to both:
in every schedule of the delivery loops starting from a queue holding the
message and two members with nothing delivered, at most one member's loop
ever receives it. -/
theorem broadcast_message_lost (msg : Message) (st : BState)
    (h : Relation.ReflTransGen BStep ⟨[msg], [[], []]⟩ st)
    (l1 l2 : List Message) (hd : st.delivered = [l1, l2]) :
    ¬ (msg ∈ l1 ∧ msg ∈ l2) := by
  rintro ⟨h1, h2⟩
  have hinv := totalCount_reach msg h
  have hinit : totalCount msg ⟨[msg], [[], []]⟩ = 1 := by
    simp [totalCount]
  rw [hinit] at hinv
  have hc1 : 0 < l1.count msg := List.count_pos_iff.mpr h1
  have hc2 : 0 < l2.count msg := List.count_pos_iff.mpr h2
  have : totalCount msg st =
      st.queue.count msg + (l1.count msg + (l2.count msg + 0)) := by
    simp [totalCount, hd]
  omega

/-- Witness for C1: the schedule in which member 0's loop performs the
single `get`; member 1 has received nothing and the queue is empty. -/
theorem broadcast_message_lost_witness :
    ¬ (systemMsg "hello" "t" ∈ [systemMsg "hello" "t"] ∧
       systemMsg "hello" "t" ∈ ([] : List Message)) :=
  broadcast_message_lost (systemMsg "hello" "t")
    ⟨[], [[systemMsg "hello" "t"], []]⟩
    (Relation.ReflTransGen.single
      (BStep.get 0 (systemMsg "hello" "t") [] [[], []] (by decide)))
    [systemMsg "hello" "t"] [] rfl

/-- The server-wide state touched by join and teardown: `self.rooms`
(the registry, room name → room object), the live `ChatRoom` objects
(Python object references are embedded as heap ids), and `self.clients`
(ids of active connections). -/
structure ServerState where
  registry : List (String × Nat)
  heap : List (Nat × Room)
  clients : List Nat
deriving DecidableEq, Repr

/-- Embeds `name in self.rooms` / `self.rooms[name]` on the registry. -/
def lookupName (reg : List (String × Nat)) (name : String) : Option Nat :=
  (reg.find? (fun p => p.1 == name)).map (fun p => p.2)

/-- Dereference a room object id. -/
def heapGet (h : List (Nat × Room)) (rid : Nat) : Option Room :=
  (h.find? (fun p => p.1 == rid)).map (fun p => p.2)

/-- Mutate the room object behind `rid`. -/
def heapSet (h : List (Nat × Room)) (rid : Nat) (r : Room) :
    List (Nat × Room) :=
  h.map (fun p => if p.1 == rid then (rid, r) else p)

/-- The room attach in `handle_client`: `if room_name not in self.rooms:
self.rooms[room_name] = ChatRoom(room_name)` then
`room = self.rooms[room_name]`.  `freshId` is the identity of the newly
constructed `ChatRoom` object when one is created; a fresh object starts
with an empty member set and an empty queue. -/
def getOrCreateRoom (st : ServerState) (name : String) (freshId : Nat) :
    ServerState × Nat :=
  match lookupName st.registry name with
  | some rid => (st, rid)
  | none =>
      ({ st with
          registry := st.registry ++ [(name, freshId)],
          heap := st.heap ++
            [(freshId, { name := name, members := [], queue := [] })] },
        freshId)

/-- Embeds `AsyncChatServer._disconnect_client`: discard the client from
`self.clients`; if `client.current_room` is set (it is an object
reference and is never cleared, so it can be stale), run
`remove_member` on that object and then
`if len(client.current_room.members) == 0: del self.rooms[name]` —
Python `del` raises `KeyError` when the name is not registered. -/
def disconnect_client (st : ServerState) (c : Client)
    (currentRoom : Option Nat) (now : String) : Except String ServerState :=
  let st1 : ServerState :=
    { st with clients := st.clients.filter (fun i => i != c.id) }
  match currentRoom with
  | none => .ok st1
  | some rid =>
    match heapGet st1.heap rid with
    | none => .ok st1
    | some room =>
      let room1 := remove_member room c now
      let st2 : ServerState := { st1 with heap := heapSet st1.heap rid room1 }
      if room1.members.isEmpty then
        match lookupName st2.registry room1.name with
        | some _ =>
            .ok { st2 with
                  registry := st2.registry.filter (fun p => p.1 != room1.name) }
        | none => .error "KeyError"
      else .ok st2

/-- An `add_member`/`remove_member` call in a call sequence on one room. -/
inductive RoomOp where
  | add (c : Client)
  | remove (c : Client)
deriving DecidableEq, Repr

def applyOp (now : String) (room : Room) : RoomOp → Room
  | .add c => add_member room c now
  | .remove c => remove_member room c now

def runOps (now : String) (room : Room) : List RoomOp → Room
  | [] => room
  | op :: rest => runOps now (applyOp now room op) rest

def joinCount : List RoomOp → Nat
  | [] => 0
  | RoomOp.add _ :: rest => joinCount rest + 1
  | RoomOp.remove _ :: rest => joinCount rest

def leaveCount : List RoomOp → Nat
  | [] => 0
  | RoomOp.add _ :: rest => leaveCount rest
  | RoomOp.remove _ :: rest => leaveCount rest + 1

/-- Call sequences the server actually performs on a room: every added
client is not currently a member, every removed client is. -/
def wfOps : List Client → List RoomOp → Prop
  | _, [] => True
  | mem, RoomOp.add c :: rest => c ∉ mem ∧ wfOps (mem ++ [c]) rest
  | mem, RoomOp.remove c :: rest =>
      c ∈ mem ∧ wfOps (mem.filter (fun m => m != c)) rest

theorem length_filter_ne {l : List Client} {c : Client}
    (hnd : l.Nodup) (hc : c ∈ l) :
    (l.filter (fun m => m != c)).length + 1 = l.length := by
  induction l with
  | nil => cases hc
  | cons x xs ih =>
    rw [List.nodup_cons] at hnd
    by_cases hx : x = c
    · have hcnot : c ∉ xs := hx ▸ hnd.1
      have hdrop : ((x :: xs).filter (fun m => m != c)) =
          xs.filter (fun m => m != c) := by
        simp [List.filter_cons, hx]
      have hself : xs.filter (fun m => m != c) = xs :=
        List.filter_eq_self.mpr (fun a ha => by
          simp only [bne_iff_ne, ne_eq, decide_eq_true_eq]
          rintro rfl
          exact hcnot ha)
      rw [hdrop, hself]
      simp
    · have hxc : (x != c) = true := by
        simp [bne_iff_ne, hx]
      have hcm : c ∈ xs := by
        rcases List.mem_cons.mp hc with h | h
        · exact absurd h.symm hx
        · exact h
      simp only [List.filter_cons, hxc, if_true, List.length_cons]
      have := ih hnd.2 hcm
      omega

theorem runOps_count (now : String) : ∀ (ops : List RoomOp) (room : Room),
    room.members.Nodup → wfOps room.members ops →
    (runOps now room ops).members.length + leaveCount ops =
      room.members.length + joinCount ops := by
  intro ops
  induction ops with
  | nil => intro room _ _; simp [runOps, joinCount, leaveCount]
  | cons op rest ih =>
    intro room hnd hwf
    cases op with
    | add c =>
      obtain ⟨hc, hwf'⟩ := hwf
      have hmem : (add_member room c now).members = room.members ++ [c] := by
        simp [add_member, hc]
      have hnd' : (add_member room c now).members.Nodup := by
        rw [hmem]
        exact hnd.append (List.nodup_singleton c)
          (fun a ha hb => by
            rw [List.mem_singleton] at hb
            exact hc (hb ▸ ha))
      have hwf'' : wfOps (add_member room c now).members rest := by
        rw [hmem]; exact hwf'
      have := ih (add_member room c now) hnd' hwf''
      simp only [runOps, applyOp, joinCount, leaveCount] at *
      rw [hmem] at this
      simp at this ⊢
      omega
    | remove c =>
      obtain ⟨hc, hwf'⟩ := hwf
      have hmem : (remove_member room c now).members =
          room.members.filter (fun m => m != c) := rfl
      have hnd' : (remove_member room c now).members.Nodup := by
        rw [hmem]; exact hnd.filter _
      have hwf'' : wfOps (remove_member room c now).members rest := by
        rw [hmem]; exact hwf'
      have hlen := length_filter_ne hnd hc
      have := ih (remove_member room c now) hnd' hwf''
      simp only [runOps, applyOp, joinCount, leaveCount] at *
      rw [hmem] at this
      omega

/-- C4 counterexample: Python `set.add` is idempotent, so the sequence
`add_member(c); add_member(c)` leaves membership count `1`, not
`#joins − #leaves = 2`. -/
theorem room_count_not_joins_minus_leaves :
    ((runOps "t" { name := "r", members := [], queue := [] }
        [RoomOp.add ⟨0, "alice"⟩, RoomOp.add ⟨0, "alice"⟩]).members.length : Int) ≠
      (joinCount [RoomOp.add ⟨0, "alice"⟩, RoomOp.add ⟨0, "alice"⟩] : Int) -
        (leaveCount [RoomOp.add ⟨0, "alice"⟩, RoomOp.add ⟨0, "alice"⟩] : Int) := by
  decide

theorem getOrCreateRoom_fresh (st : ServerState) (name : String)
    (freshId : Nat) (hlook : lookupName st.registry name = none)
    (hfresh : heapGet st.heap freshId = none) :
    heapGet ((getOrCreateRoom st name freshId).1).heap
        ((getOrCreateRoom st name freshId).2) =
      some { name := name, members := [], queue := [] } := by
  unfold getOrCreateRoom
  rw [hlook]
  unfold heapGet at hfresh ⊢
  have hfind : st.heap.find? (fun p => p.1 == freshId) = none := by
    cases hfo : st.heap.find? (fun p => p.1 == freshId) with
    | none => rfl
    | some p => rw [hfo] at hfresh; simp at hfresh
  simp [List.find?_append, hfind]

theorem lookupName_filter_out (reg : List (String × Nat)) (name : String) :
    lookupName (reg.filter (fun p => p.1 != name)) name = none := by
  unfold lookupName
  rw [List.find?_eq_none.mpr]
  · rfl
  · intro p hp
    have := (List.mem_filter.mp hp).2
    simp only [bne_iff_ne, ne_eq, decide_eq_true_eq] at this
    simp [this]

/-- C4 (amended): membership count is always non-negative, and for every
call sequence in which each `add_member` adds a client not currently a
member and each `remove_member` removes a current member (the only
sequences the server performs), the count equals `#joins − #leaves` at
every point — for arbitrary sequences Python's idempotent `set.add` /
`set.discard` break the equality.  Room deregistration happens in
`_disconnect_client`: when removing the client empties the room's member
set, the room's name is deleted from the registry, and a later
`getOrCreateRoom` for that name builds a fresh `ChatRoom` object with an
empty member set. -/
theorem room_count_and_deregistration (now : String) (ops : List RoomOp)
    (room : Room) (hnd : room.members.Nodup) (hwf : wfOps room.members ops)
    (st : ServerState) (c : Client) (rid : Nat) (r : Room) (now2 : String)
    (freshId : Nat) (hheap : heapGet st.heap rid = some r)
    (hempty : (remove_member r c now2).members = [])
    (hreg : lookupName st.registry r.name ≠ none) :
    ((0 : Int) ≤ ((runOps now room ops).members.length : Int)) ∧
    ((runOps now room ops).members.length + leaveCount ops =
      room.members.length + joinCount ops) ∧
    (∃ st', disconnect_client st c (some rid) now2 = .ok st' ∧
      lookupName st'.registry r.name = none ∧
      (heapGet st'.heap freshId = none →
        heapGet ((getOrCreateRoom st' r.name freshId).1).heap
            ((getOrCreateRoom st' r.name freshId).2) =
          some { name := r.name, members := [], queue := [] })) := by
  refine ⟨Int.ofNat_nonneg _, runOps_count now ops room hnd hwf, ?_⟩
  have hname : (remove_member r c now2).name = r.name := rfl
  cases hlook : lookupName st.registry r.name with
  | none => exact absurd hlook hreg
  | some rid0 =>
    refine ⟨{ st with
        clients := st.clients.filter (fun i => i != c.id),
        heap := heapSet st.heap rid (remove_member r c now2),
        registry := st.registry.filter (fun p => p.1 != r.name) }, ?_, ?_, ?_⟩
    · unfold disconnect_client
      simp only [hheap]
      rw [List.isEmpty_iff.mpr hempty]
      simp only [hname, hlook]
      rfl
    · exact lookupName_filter_out _ _
    · intro hfresh
      exact getOrCreateRoom_fresh _ _ _ (lookupName_filter_out _ _) hfresh

/-- Witness for the amended C4 at a concrete run: one add then one remove
on an initially empty room, and a server holding a single one-member room
that is emptied and deregistered by `_disconnect_client`. -/
theorem room_count_and_deregistration_witness :
    ((0 : Int) ≤ ((runOps "t" { name := "r", members := [], queue := [] }
        [RoomOp.add ⟨1, "a"⟩, RoomOp.remove ⟨1, "a"⟩]).members.length : Int)) ∧
    ((runOps "t" { name := "r", members := [], queue := [] }
        [RoomOp.add ⟨1, "a"⟩, RoomOp.remove ⟨1, "a"⟩]).members.length +
        leaveCount [RoomOp.add ⟨1, "a"⟩, RoomOp.remove ⟨1, "a"⟩] =
      ([] : List Client).length +
        joinCount [RoomOp.add ⟨1, "a"⟩, RoomOp.remove ⟨1, "a"⟩]) ∧
    (∃ st', disconnect_client
        { registry := [("lobby", 0)],
          heap := [(0, { name := "lobby", members := [⟨7, "alice"⟩],
                         queue := [] })],
          clients := [7] } ⟨7, "alice"⟩ (some 0) "t2" = .ok st' ∧
      lookupName st'.registry "lobby" = none ∧
      (heapGet st'.heap 5 = none →
        heapGet ((getOrCreateRoom st' "lobby" 5).1).heap
            ((getOrCreateRoom st' "lobby" 5).2) =
          some { name := "lobby", members := [], queue := [] })) := by
  have := room_count_and_deregistration "t"
    [RoomOp.add ⟨1, "a"⟩, RoomOp.remove ⟨1, "a"⟩]
    { name := "r", members := [], queue := [] }
    (by simp) (by constructor <;> simp [wfOps])
    { registry := [("lobby", 0)],
      heap := [(0, { name := "lobby", members := [⟨7, "alice"⟩], queue := [] })],
      clients := [7] } ⟨7, "alice"⟩ 0
    { name := "lobby", members := [⟨7, "alice"⟩], queue := [] } "t2" 5
    (by rfl) (by simp [remove_member]) (by simp [lookupName])
  exact this

/-- C9 counterexample: the teardown step is not idempotent.  Running
`_disconnect_client` once on the sole member of `"lobby"` empties and
deregisters the room (and enqueues a leave notice on the dead room
object); running it a second time enqueues a second leave notice and
raises `KeyError` at `del self.rooms["lobby"]`, instead of leaving state
identical to one run. -/
theorem disconnect_not_idempotent :
    disconnect_client
      { registry := [("lobby", 0)],
        heap := [(0, { name := "lobby", members := [⟨7, "alice"⟩],
                       queue := [] })],
        clients := [7] } ⟨7, "alice"⟩ (some 0) "t1" =
      .ok { registry := [],
            heap := [(0, { name := "lobby", members := [],
                           queue := [systemMsg "alice left the room" "t1"] })],
            clients := [] } ∧
    disconnect_client
      { registry := [],
        heap := [(0, { name := "lobby", members := [],
                       queue := [systemMsg "alice left the room" "t1"] })],
        clients := [] } ⟨7, "alice"⟩ (some 0) "t2" = .error "KeyError" := by
  constructor <;> rfl

/-- C9 (amended): the membership-removal substep is idempotent —
`set.discard` twice leaves the member set exactly as one removal — and in
the code the full teardown runs once per connection (from
`handle_client`'s `finally`), so a session is removed from membership
exactly once; but the full teardown step is not idempotent: when the
first run has emptied and deregistered the room, a second
`_disconnect_client` run raises `KeyError` at registry deletion (after
enqueueing a duplicate leave notice). -/
theorem teardown_membership_idempotent (room : Room) (c : Client)
    (now now2 : String) (st : ServerState) (rid : Nat) (r : Room)
    (hheap : heapGet st.heap rid = some r)
    (hempty : (remove_member r c now2).members = [])
    (hreg : lookupName st.registry r.name = none) :
    ((remove_member (remove_member room c now) c now2).members =
      (remove_member room c now).members) ∧
    disconnect_client st c (some rid) now2 = .error "KeyError" := by
  constructor
  · simp [remove_member, List.filter_filter]
  · unfold disconnect_client
    simp only [hheap]
    rw [List.isEmpty_iff.mpr hempty]
    have hname : (remove_member r c now2).name = r.name := rfl
    simp only [hname, hreg]
    rfl

/-- Witness for the amended C9: a stale room reference whose room was
already deregistered makes the second teardown raise `KeyError`, while
membership removal stays idempotent. -/
theorem teardown_membership_idempotent_witness :
    ((remove_member (remove_member
        { name := "lobby", members := [⟨7, "alice"⟩], queue := [] }
        ⟨7, "alice"⟩ "t0") ⟨7, "alice"⟩ "t1").members =
      (remove_member { name := "lobby", members := [⟨7, "alice"⟩], queue := [] }
        ⟨7, "alice"⟩ "t0").members) ∧
    disconnect_client
      { registry := [],
        heap := [(0, { name := "lobby", members := [],
                       queue := [systemMsg "alice left the room" "t1"] })],
        clients := [] } ⟨7, "alice"⟩ (some 0) "t1" = .error "KeyError" :=
  teardown_membership_idempotent
    { name := "lobby", members := [⟨7, "alice"⟩], queue := [] }
    ⟨7, "alice"⟩ "t0" "t1"
    { registry := [],
      heap := [(0, { name := "lobby", members := [],
                     queue := [systemMsg "alice left the room" "t1"] })],
      clients := [] } 0
    { name := "lobby", members := [],
      queue := [systemMsg "alice left the room" "t1"] }
    (by rfl) (by simp [remove_member]) (by simp [lookupName])

/-- The filesystem as `_upload_file` observes it: `Path.exists()`,
`Path.is_file()`, and the byte content read by `source.read()`. -/
structure FileSys where
  pathExists : String → Bool
  isRegularFile : String → Bool
  contents : String → List Nat

/-- Python `Path(p).name`: the last path component. -/
def pyBaseName (s : String) : String :=
  String.mk ((s.data.reverse.takeWhile (fun c => !(c == '/'))).reverse)

/-- The path normalisation at the top of `_upload_file`:
`file_path.strip()`, then `Path(...).absolute()` for relative paths
(prefixing the server's working directory `cwd`). -/
def resolveUploadPath (cwd filePath : String) : String :=
  let p := pyStrip filePath
  if p.startsWith "/" then p else cwd ++ "/" ++ p

/-- What one `_upload_file` call produces: the messages sent back to the
uploading client, the files written into the uploads directory (name
within the directory, byte content), and the notice put on the current
room's broadcast queue when there is one. -/
structure UploadOutcome where
  clientMsgs : List Message
  writes : List (String × List Nat)
  roomNotice : Option Message
deriving DecidableEq, Repr

/-- An `{"type": "error", "content": ...}` record (no timestamp field). -/
def errorMsg (content : String) : Message :=
  { type := "error", content := some content }

/-- An `{"type": "system", "content": ...}` record built without a
`"time"` field (as in `_handle_command` and `_upload_file`). -/
def plainSystemMsg (content : String) : Message :=
  { type := "system", content := some content }

/-- The `system` confirmation `_upload_file` sends the uploader. -/
def uploadSuccessMsg (fileName : String) (byteCount : Nat) : Message :=
  plainSystemMsg ("File " ++ fileName ++ " uploaded successfully (" ++
    toString byteCount ++ " bytes)")

/-- Embeds `AsyncChatServer._upload_file`: resolve the path; a missing path
sends one `error` and returns; an existing non-regular-file path sends
one `error` and returns; otherwise the bytes are copied into the uploads
directory under `Path(p).name`, the uploader gets a `system` confirmation
quoting the byte count, and a `system` notice goes to the room queue. -/
def uploadFile (fs : FileSys) (cwd : String) (client : Client)
    (hasRoom : Bool) (filePath : String) : UploadOutcome :=
  let abs := resolveUploadPath cwd filePath
  if !(fs.pathExists abs) then
    { clientMsgs := [errorMsg ("File not found: " ++ abs)],
      writes := [], roomNotice := none }
  else if !(fs.isRegularFile abs) then
    { clientMsgs := [errorMsg ("Path is not a file: " ++ abs)],
      writes := [], roomNotice := none }
  else
    let fileName := pyBaseName abs
    let content := fs.contents abs
    { clientMsgs := [uploadSuccessMsg fileName content.length],
      writes := [(fileName, content)],
      roomNotice :=
        if hasRoom then
          some (plainSystemMsg (client.username ++ " uploaded file: " ++
            fileName))
        else none }

/-- C5: `_upload_file` on a path that does not resolve to an existing
regular file sends exactly one `error` message and writes nothing into
the uploads directory; on an existing regular file it sends the uploader
one confirmation quoting the file's byte count and writes a byte-identical
copy under the file's base name. -/
theorem upload_file_spec (fs : FileSys) (cwd : String) (client : Client)
    (hasRoom : Bool) (filePath : String) :
    (fs.pathExists (resolveUploadPath cwd filePath) = false →
      (uploadFile fs cwd client hasRoom filePath).clientMsgs =
        [errorMsg ("File not found: " ++ resolveUploadPath cwd filePath)] ∧
      (uploadFile fs cwd client hasRoom filePath).writes = []) ∧
    (fs.pathExists (resolveUploadPath cwd filePath) = true →
      fs.isRegularFile (resolveUploadPath cwd filePath) = false →
      (uploadFile fs cwd client hasRoom filePath).clientMsgs =
        [errorMsg ("Path is not a file: " ++
          resolveUploadPath cwd filePath)] ∧
      (uploadFile fs cwd client hasRoom filePath).writes = []) ∧
    (fs.pathExists (resolveUploadPath cwd filePath) = true →
      fs.isRegularFile (resolveUploadPath cwd filePath) = true →
      (uploadFile fs cwd client hasRoom filePath).clientMsgs =
        [uploadSuccessMsg (pyBaseName (resolveUploadPath cwd filePath))
          (fs.contents (resolveUploadPath cwd filePath)).length] ∧
      (uploadFile fs cwd client hasRoom filePath).writes =
        [(pyBaseName (resolveUploadPath cwd filePath),
          fs.contents (resolveUploadPath cwd filePath))]) := by
  refine ⟨?_, ?_, ?_⟩
  · intro h
    constructor <;> simp [uploadFile, h]
  · intro h1 h2
    constructor <;> simp [uploadFile, h1, h2]
  · intro h1 h2
    constructor <;> simp [uploadFile, h1, h2]

/-- A one-regular-file filesystem for concrete evaluation:
`/data/notes.txt` holds the three bytes of `"hi\n"`. -/
def fsNotes : FileSys :=
  { pathExists := fun p => p == "/data/notes.txt",
    isRegularFile := fun p => p == "/data/notes.txt",
    contents := fun p =>
      if p == "/data/notes.txt" then [104, 105, 10] else [] }

/-- Witness for C5 on `fsNotes`: uploading the existing regular file
`/data/notes.txt` (3 bytes). -/
theorem upload_file_spec_witness :
    (fsNotes.pathExists (resolveUploadPath "/srv" "/data/notes.txt") =
        false →
      (uploadFile fsNotes "/srv" ⟨1, "alice"⟩ true
          "/data/notes.txt").clientMsgs =
        [errorMsg ("File not found: " ++
          resolveUploadPath "/srv" "/data/notes.txt")] ∧
      (uploadFile fsNotes "/srv" ⟨1, "alice"⟩ true
          "/data/notes.txt").writes = []) ∧
    (fsNotes.pathExists (resolveUploadPath "/srv" "/data/notes.txt") =
        true →
      fsNotes.isRegularFile (resolveUploadPath "/srv" "/data/notes.txt") =
        false →
      (uploadFile fsNotes "/srv" ⟨1, "alice"⟩ true
          "/data/notes.txt").clientMsgs =
        [errorMsg ("Path is not a file: " ++
          resolveUploadPath "/srv" "/data/notes.txt")] ∧
      (uploadFile fsNotes "/srv" ⟨1, "alice"⟩ true
          "/data/notes.txt").writes = []) ∧
    (fsNotes.pathExists (resolveUploadPath "/srv" "/data/notes.txt") =
        true →
      fsNotes.isRegularFile (resolveUploadPath "/srv" "/data/notes.txt") =
        true →
      (uploadFile fsNotes "/srv" ⟨1, "alice"⟩ true
          "/data/notes.txt").clientMsgs =
        [uploadSuccessMsg
          (pyBaseName (resolveUploadPath "/srv" "/data/notes.txt"))
          (fsNotes.contents
            (resolveUploadPath "/srv" "/data/notes.txt")).length] ∧
      (uploadFile fsNotes "/srv" ⟨1, "alice"⟩ true
          "/data/notes.txt").writes =
        [(pyBaseName (resolveUploadPath "/srv" "/data/notes.txt"),
          fsNotes.contents (resolveUploadPath "/srv" "/data/notes.txt"))]) :=
  upload_file_spec fsNotes "/srv" ⟨1, "alice"⟩ true "/data/notes.txt"

/-- What the caller of `ClientConnection.send_message` observes: the
coroutine either returned normally or raised. -/
inductive SendOutcome where
  | returned
  | raised (e : String)
deriving DecidableEq, Repr

/-- Embeds `ClientConnection.send_message`: `writer.write` / `writer.drain`
inside `try`; the `except` clause logs the error
(`logger.error(f"Ошибка отправки сообщения ...")`) and falls through, so
the coroutine returns normally whether or not the write faulted.
`ioFault` is `some e` when the underlying write raises `e`; the second
component is the log output of this call. -/
def send_message (username : String) (ioFault : Option String) :
    SendOutcome × List String :=
  match ioFault with
  | some e =>
      (.returned, ["Ошибка отправки сообщения " ++ username ++ ": " ++ e])
  | none => (.returned, [])

/-- C6 counterexample: an I/O fault inside `send_message` is NOT reported
to the caller — the call returns normally (`SendOutcome.returned`, not
`raised`), the exception having been caught and only logged. -/
theorem send_fault_not_reported :
    (send_message "alice" (some "broken pipe")).1 = SendOutcome.returned ∧
    (send_message "alice" (some "broken pipe")).1 ≠
      SendOutcome.raised "broken pipe" := by
  constructor <;> decide

/-- C6 (amended): every I/O fault in `send_message` is caught, logged
(so it is visible in the server log, not silent there), and swallowed:
the caller always sees a normal return.  Precisely because the fault
never propagates, a send failure for one client cannot crash the server
or disrupt other clients' connections. -/
theorem send_message_swallows_faults (username : String)
    (ioFault : Option String) :
    (send_message username ioFault).1 = SendOutcome.returned ∧
    (∀ e, ioFault = some e →
      (send_message username ioFault).2 =
        ["Ошибка отправки сообщения " ++ username ++ ": " ++ e]) ∧
    (ioFault = none → (send_message username ioFault).2 = []) := by
  refine ⟨?_, ?_, ?_⟩
  · cases ioFault <;> rfl
  · intro e he
    rw [he]
    rfl
  · intro he
    rw [he]
    rfl

/-- Witness for the amended C6 at a concrete fault. -/
theorem send_message_swallows_faults_witness :
    (send_message "bob" (some "connection reset")).1 =
      SendOutcome.returned ∧
    (∀ e, (some "connection reset" : Option String) = some e →
      (send_message "bob" (some "connection reset")).2 =
        ["Ошибка отправки сообщения " ++ "bob" ++ ": " ++ e]) ∧
    ((some "connection reset" : Option String) = none →
      (send_message "bob" (some "connection reset")).2 = []) :=
  send_message_swallows_faults "bob" (some "connection reset")

/-- Embeds `parts[0].lower()` of `_handle_command`: the lower-cased first token
of the line. -/
def commandWord (command : String) : String :=
  pyLower (String.mk ((pySplitFirst command.data).headD []))

/-- The `system` help text `_handle_command` sends for `/help`. -/
def helpMsg : Message :=
  plainSystemMsg (String.intercalate "\n"
    ["=== Available Commands ===",
     "/help - show this help",
     "/list - show room members",
     "/private @name message - send private message",
     "/file - upload file",
     "/quit - exit chat"])

/-- Everything one `_handle_command` call does: replies to the invoking
client, puts on the room broadcast queue, private-inbox writes,
uploads-directory writes, and whether it raises `CancelledError`
(`/quit`), which ends the connection's duties. -/
structure CmdOutcome where
  toClient : List Message
  roomQueue : List Message
  privWrites : List (Nat × Message)
  uploadWrites : List (String × List Nat)
  aborts : Bool
deriving DecidableEq, Repr

/-- The outcome of a `_handle_command` call that does nothing at all. -/
def noEffects : CmdOutcome :=
  { toClient := [], roomQueue := [], privWrites := [],
    uploadWrites := [], aborts := false }

/-- Embeds `AsyncChatServer._handle_command`: split the line with
`command.split(maxsplit=1)`, lower-case the head, and dispatch.  An
unknown command falls off the end of the `if/elif` chain: nothing is
sent.  `/private` without both a target and text falls out of its inner
`if`s: nothing is sent.  `/file` with an inline path delegates to
`_upload_file`; without one it sends a prompt (the follow-up path line is
read outside this call).  `/quit` raises `asyncio.CancelledError`. -/
def handle_command (fs : FileSys) (cwd : String) (client : Client)
    (room : Option Room) (command : String) (now : String) : CmdOutcome :=
  let parts := pySplitFirst command.data
  if commandWord command == "/help" then
    { noEffects with toClient := [helpMsg] }
  else if commandWord command == "/list" then
    match room with
    | some r =>
        { noEffects with
          toClient := [plainSystemMsg ("Room members: " ++
            String.intercalate ", "
              (r.members.map (fun m => m.username)))] }
    | none => noEffects
  else if commandWord command == "/private" then
    match parts with
    | [_, remainder] =>
      match pySplitFirst remainder with
      | [toRaw, text] =>
        let toUsername := pyLstripAt (String.mk toRaw)
        match room with
        | some r =>
          let res :=
            send_private_message r client toUsername (String.mk text) now
          if res.1 then
            { noEffects with
              toClient :=
                [plainSystemMsg ("Private message sent to " ++ toUsername)],
              privWrites := res.2 }
          else
            { noEffects with
              toClient := [errorMsg ("User " ++ toUsername ++ " not found")] }
        | none => noEffects
      | _ => noEffects
    | _ => noEffects
  else if commandWord command == "/file" then
    match parts with
    | [_, pathArg] =>
      let out := uploadFile fs cwd client room.isSome (String.mk pathArg)
      { toClient := out.clientMsgs,
        roomQueue := out.roomNotice.toList,
        privWrites := [], uploadWrites := out.writes, aborts := false }
    | _ =>
      { noEffects with
        toClient := [plainSystemMsg "Send file path to upload"] }
  else if commandWord command == "/quit" then
    { noEffects with aborts := true }
  else
    noEffects

/-- C7 counterexample: an unrecognized slash command (`/color red`) and a
`/private` missing its text (`/private @bob`) both produce NO reply at
all — in particular no `error` message — falling through
`_handle_command`'s `if/elif` chain (they also do not abort). -/
theorem command_faults_without_error_reply :
    handle_command fsNotes "/srv" ⟨1, "alice"⟩
      (some { name := "lobby", members := [⟨1, "alice"⟩, ⟨2, "bob"⟩],
              queue := [] }) "/color red" "t" = noEffects ∧
    handle_command fsNotes "/srv" ⟨1, "alice"⟩
      (some { name := "lobby", members := [⟨1, "alice"⟩, ⟨2, "bob"⟩],
              queue := [] }) "/private @bob" "t" = noEffects := by
  constructor <;> rfl

/-- C7 (amended): a `/private` whose target is not in the room and a
`/file` whose path is missing or not a regular file each send the
originating client exactly one `error` message and never abort the
connection; an unrecognized slash command and a `/private` with a missing
target or text are silently ignored — no message of any kind is sent —
and never abort either.  Only `/quit` aborts. -/
theorem command_faults_spec (fs : FileSys) (cwd : String) (client : Client)
    (room : Option Room) (command : String) (now : String) :
    ((commandWord command == "/help") = false →
      (commandWord command == "/list") = false →
      (commandWord command == "/private") = false →
      (commandWord command == "/file") = false →
      (commandWord command == "/quit") = false →
      handle_command fs cwd client room command now = noEffects) ∧
    (∀ t, commandWord command = "/private" →
      pySplitFirst command.data = [t] →
      handle_command fs cwd client room command now = noEffects) ∧
    (∀ t rem u, commandWord command = "/private" →
      pySplitFirst command.data = [t, rem] →
      pySplitFirst rem = [u] →
      handle_command fs cwd client room command now = noEffects) ∧
    (∀ t rem u txt r, commandWord command = "/private" →
      pySplitFirst command.data = [t, rem] →
      pySplitFirst rem = [u, txt] →
      room = some r →
      (∀ m ∈ r.members, m.username ≠ pyLstripAt (String.mk u)) →
      (handle_command fs cwd client room command now).toClient =
        [errorMsg ("User " ++ pyLstripAt (String.mk u) ++ " not found")] ∧
      (handle_command fs cwd client room command now).aborts = false ∧
      (handle_command fs cwd client room command now).privWrites = []) ∧
    (∀ t pathArg, commandWord command = "/file" →
      pySplitFirst command.data = [t, pathArg] →
      fs.pathExists (resolveUploadPath cwd (String.mk pathArg)) = false →
      (handle_command fs cwd client room command now).toClient =
        [errorMsg ("File not found: " ++
          resolveUploadPath cwd (String.mk pathArg))] ∧
      (handle_command fs cwd client room command now).aborts = false ∧
      (handle_command fs cwd client room command now).uploadWrites = []) ∧
    (∀ t pathArg, commandWord command = "/file" →
      pySplitFirst command.data = [t, pathArg] →
      fs.pathExists (resolveUploadPath cwd (String.mk pathArg)) = true →
      fs.isRegularFile (resolveUploadPath cwd (String.mk pathArg)) = false →
      (handle_command fs cwd client room command now).toClient =
        [errorMsg ("Path is not a file: " ++
          resolveUploadPath cwd (String.mk pathArg))] ∧
      (handle_command fs cwd client room command now).aborts = false ∧
      (handle_command fs cwd client room command now).uploadWrites = []) := by
  refine ⟨?_, ?_, ?_, ?_, ?_, ?_⟩
  · intro h1 h2 h3 h4 h5
    simp [handle_command, h1, h2, h3, h4, h5]
  · intro t hcw hp
    simp [handle_command, hcw, hp]
  · intro t rem u hcw hp hpp
    simp [handle_command, hcw, hp, hpp]
  · intro t rem u txt r hcw hp hpp hroom hno
    subst hroom
    have hfind : r.members.find?
        (fun m => m.username == pyLstripAt (String.mk u)) = none := by
      rw [List.find?_eq_none]
      intro m hm
      simp [hno m hm]
    refine ⟨?_, ?_, ?_⟩ <;>
      simp [handle_command, hcw, hp, hpp, send_private_message, hfind,
        noEffects]
  · intro t pathArg hcw hp hnf
    refine ⟨?_, ?_, ?_⟩ <;>
      simp [handle_command, hcw, hp, uploadFile, hnf, noEffects]
  · intro t pathArg hcw hp hex hnf
    refine ⟨?_, ?_, ?_⟩ <;>
      simp [handle_command, hcw, hp, uploadFile, hex, hnf, noEffects]

/-- Witness for the amended C7: `/private @ghost hello` in a room without
a member `ghost` yields the user-not-found `error` and no abort. -/
theorem command_faults_spec_witness :
    commandWord "/private @ghost hello" = "/private" ∧
    pySplitFirst ("/private @ghost hello").data =
      ["/private".data, "@ghost hello".data] ∧
    pySplitFirst ("@ghost hello").data = ["@ghost".data, "hello".data] ∧
    (∀ m ∈ [(⟨1, "alice"⟩ : Client)],
      m.username ≠ pyLstripAt (String.mk ("@ghost").data)) ∧
    ((handle_command fsNotes "/srv" ⟨1, "alice"⟩
        (some { name := "lobby", members := [⟨1, "alice"⟩], queue := [] })
        "/private @ghost hello" "t").toClient =
      [errorMsg ("User " ++ pyLstripAt (String.mk ("@ghost").data) ++
        " not found")] ∧
    (handle_command fsNotes "/srv" ⟨1, "alice"⟩
        (some { name := "lobby", members := [⟨1, "alice"⟩], queue := [] })
        "/private @ghost hello" "t").aborts = false ∧
    (handle_command fsNotes "/srv" ⟨1, "alice"⟩
        (some { name := "lobby", members := [⟨1, "alice"⟩], queue := [] })
        "/private @ghost hello" "t").privWrites = []) := by
  refine ⟨by decide, by decide, by decide, by decide, ?_⟩
  exact (command_faults_spec fsNotes "/srv" ⟨1, "alice"⟩
      (some { name := "lobby", members := [⟨1, "alice"⟩], queue := [] })
      "/private @ghost hello" "t").2.2.2.1
    ("/private".data) ("@ghost hello".data) ("@ghost".data) ("hello".data)
    { name := "lobby", members := [⟨1, "alice"⟩], queue := [] }
    (by decide) (by decide) (by decide) rfl (by decide)

/-- C8 counterexample: the `request` record asking for the username is a
server-constructed message with no `time` field and no `content` field,
and it is really sent — it is the first (and on immediate EOF the only)
message of the handshake. -/
theorem request_message_lacks_timestamp :
    usernameRequestMsg.time = none ∧ usernameRequestMsg.content = none ∧
    (handshake none none).2 = [usernameRequestMsg] :=
  ⟨rfl, rfl, rfl⟩

/-- C8 (amended): the records placed on a room's broadcast queue by
`add_member` / `remove_member` / `post_message` and the `private` records
all carry the formatted timestamp and a content; room-chat records carry
the sender; a `private` record carries the sender (`"from"`) and is
written only onto the addressed member's inbox.  But the `request`,
`success` welcome, `error`, and the timestamp-less `system` replies of the
command interpreter carry no timestamp (and the `request`/`success`
records no content field). -/
theorem constructed_message_fields (room : Room) (c : Client)
    (content now toUsername : String) :
    ((add_member room c now).queue =
      room.queue ++ [systemMsg (c.username ++ " joined the room") now]) ∧
    ((remove_member room c now).queue =
      room.queue ++ [systemMsg (c.username ++ " left the room") now]) ∧
    ((post_message room c content now).queue =
      room.queue ++ [roomChatMsg c.username content now]) ∧
    (systemMsg content now).time = some now ∧
    (systemMsg content now).content = some content ∧
    (roomChatMsg c.username content now).time = some now ∧
    (roomChatMsg c.username content now).sender = some c.username ∧
    (roomChatMsg c.username content now).content = some content ∧
    (privateMsg c.username content now).time = some now ∧
    (privateMsg c.username content now).fromUser = some c.username ∧
    (privateMsg c.username content now).content = some content ∧
    (∀ t, room.members.find? (fun m => m.username == toUsername) = some t →
      (send_private_message room c toUsername content now).2 =
        [(t.id, privateMsg c.username content now)] ∧
      t.username = toUsername) ∧
    (errorMsg content).time = none ∧
    (plainSystemMsg content).time = none ∧
    usernameRequestMsg.time = none ∧
    roomRequestMsg.time = none ∧
    (welcomeMsg content).time = none := by
  refine ⟨rfl, rfl, rfl, rfl, rfl, rfl, rfl, rfl, rfl, rfl, rfl, ?_,
    rfl, rfl, rfl, rfl, rfl⟩
  intro t ht
  unfold send_private_message
  rw [ht]
  exact ⟨rfl, (find_mem_username ht).2⟩

/-- Witness for the amended C8 at a concrete room and private send. -/
theorem constructed_message_fields_witness :
    ((add_member { name := "lobby", members := [⟨2, "bob"⟩], queue := [] }
        ⟨1, "alice"⟩ "t").queue =
      [] ++ [systemMsg ("alice" ++ " joined the room") "t"]) ∧
    ((remove_member { name := "lobby", members := [⟨2, "bob"⟩], queue := [] }
        ⟨1, "alice"⟩ "t").queue =
      [] ++ [systemMsg ("alice" ++ " left the room") "t"]) ∧
    ((post_message { name := "lobby", members := [⟨2, "bob"⟩], queue := [] }
        ⟨1, "alice"⟩ "hi" "t").queue =
      [] ++ [roomChatMsg "alice" "hi" "t"]) ∧
    (systemMsg "hi" "t").time = some "t" ∧
    (systemMsg "hi" "t").content = some "hi" ∧
    (roomChatMsg "alice" "hi" "t").time = some "t" ∧
    (roomChatMsg "alice" "hi" "t").sender = some "alice" ∧
    (roomChatMsg "alice" "hi" "t").content = some "hi" ∧
    (privateMsg "alice" "hi" "t").time = some "t" ∧
    (privateMsg "alice" "hi" "t").fromUser = some "alice" ∧
    (privateMsg "alice" "hi" "t").content = some "hi" ∧
    (∀ t, ([(⟨2, "bob"⟩ : Client)]).find?
        (fun m => m.username == "bob") = some t →
      (send_private_message
        { name := "lobby", members := [⟨2, "bob"⟩], queue := [] }
        ⟨1, "alice"⟩ "bob" "hi" "t").2 =
        [(t.id, privateMsg "alice" "hi" "t")] ∧
      t.username = "bob") ∧
    (errorMsg "hi").time = none ∧
    (plainSystemMsg "hi").time = none ∧
    usernameRequestMsg.time = none ∧
    roomRequestMsg.time = none ∧
    (welcomeMsg "hi").time = none :=
  constructed_message_fields
    { name := "lobby", members := [⟨2, "bob"⟩], queue := [] }
    ⟨1, "alice"⟩ "hi" "t" "bob"

/-- Embeds the bare-`/file` continuation of `_handle_command`: after the
`"Send file path to upload"` prompt, one more line is read with
`receive_message`, and `if file_path:` guards the upload — so a falsy
read result (end-of-stream, a read error, or an empty/whitespace-only
line) skips the upload and the handler just returns; the read loop
continues and nothing is torn down. -/
def file_prompt_followup (fs : FileSys) (cwd : String) (client : Client)
    (hasRoom : Bool) (raw : Option String) : CmdOutcome :=
  let prompt := plainSystemMsg "Send file path to upload"
  match receive_message raw with
  | none => { noEffects with toClient := [prompt] }
  | some p =>
    if p == "" then { noEffects with toClient := [prompt] }
    else
      let out := uploadFile fs cwd client hasRoom p
      { toClient := prompt :: out.clientMsgs,
        roomQueue := out.roomNotice.toList,
        privWrites := [], uploadWrites := out.writes, aborts := false }

/-- C10 counterexample: the `/file` prompt follow-up is a caller of
`receive_message` that does NOT treat a blank line like end-of-stream in
the claimed sense: a client that sent a bare `/file` and then a bare
newline has the upload silently skipped (`if file_path:` is false), the
handler returns normally (no `CancelledError`, `aborts = false`, nothing
written), and the read loop continues — the client is not disconnected. -/
theorem blank_file_path_not_disconnecting :
    receive_message (some "\n") = some "" ∧
    file_prompt_followup fsNotes "/srv" ⟨1, "alice"⟩ true (some "\n") =
      { noEffects with
        toClient := [plainSystemMsg "Send file path to upload"] } ∧
    (file_prompt_followup fsNotes "/srv" ⟨1, "alice"⟩ true
      (some "\n")).aborts = false ∧
    (file_prompt_followup fsNotes "/srv" ⟨1, "alice"⟩ true
      (some "\n")).uploadWrites = [] := by
  refine ⟨rfl, rfl, rfl, rfl⟩

/-- C10 (amended): a whitespace-only inbound line makes `receive_message`
return the empty string, which is falsy like `None`; the handshake
callers and the main read loop then act exactly as at end-of-stream (the
handshake aborts, the loop exits and the connection is torn down), but
the `/file` prompt follow-up caller swallows it instead: the upload is
skipped, no abort is raised, and the read loop continues — so a blank
line disconnects the client only when it arrives during the handshake or
as a top-level read-loop line, not as the answer to the `/file` prompt
(where end-of-stream is swallowed the same way). -/
theorem whitespace_line_per_caller (raw : String) (hasRoom : Bool)
    (fs : FileSys) (cwd : String) (client : Client)
    (hne : raw ≠ "") (hsp : raw.data.all pyIsSpace) :
    receive_message (some raw) = some "" ∧
    receive_loop_step (receive_message (some raw)) hasRoom =
      LoopAction.exitLoop ∧
    receive_loop_step none hasRoom = LoopAction.exitLoop ∧
    (∀ rawRoom, (handshake (some raw) rawRoom).1 = HandshakeResult.aborted) ∧
    (∀ rawRoom, (handshake none rawRoom).1 = HandshakeResult.aborted) ∧
    (file_prompt_followup fs cwd client hasRoom (some raw) =
      { noEffects with
        toClient := [plainSystemMsg "Send file path to upload"] }) ∧
    (file_prompt_followup fs cwd client hasRoom none =
      { noEffects with
        toClient := [plainSystemMsg "Send file path to upload"] }) ∧
    (file_prompt_followup fs cwd client hasRoom (some raw)).aborts =
      false := by
  have hrecv : receive_message (some raw) = some "" := by
    have hb : (raw == "") = false := by simpa using hne
    simp [receive_message, hb, pyStrip_eq_empty_of_all_space hsp]
  refine ⟨hrecv, ?_, rfl, ?_, ?_, ?_, rfl, ?_⟩
  · rw [hrecv]; rfl
  · intro rawRoom
    simp [handshake, hrecv]
  · intro rawRoom
    simp [handshake, receive_message]
  · simp [file_prompt_followup, hrecv]
  · simp [file_prompt_followup, hrecv, noEffects]

/-- Witness for the amended C10 at a bare newline. -/
theorem whitespace_line_per_caller_witness :
    ("\n" : String) ≠ "" ∧ ("\n" : String).data.all pyIsSpace = true ∧
    (receive_message (some "\n") = some "" ∧
     receive_loop_step (receive_message (some "\n")) true =
       LoopAction.exitLoop ∧
     receive_loop_step none true = LoopAction.exitLoop ∧
     (∀ rawRoom,
       (handshake (some "\n") rawRoom).1 = HandshakeResult.aborted) ∧
     (∀ rawRoom, (handshake none rawRoom).1 = HandshakeResult.aborted) ∧
     (file_prompt_followup fsNotes "/srv" ⟨2, "bob"⟩ true (some "\n") =
       { noEffects with
         toClient := [plainSystemMsg "Send file path to upload"] }) ∧
     (file_prompt_followup fsNotes "/srv" ⟨2, "bob"⟩ true none =
       { noEffects with
         toClient := [plainSystemMsg "Send file path to upload"] }) ∧
     (file_prompt_followup fsNotes "/srv" ⟨2, "bob"⟩ true
       (some "\n")).aborts = false) :=
  ⟨by decide, by decide,
    whitespace_line_per_caller "\n" true fsNotes "/srv" ⟨2, "bob"⟩
      (by decide) (by decide)⟩

end AsyncChat
